import Mathlib

/-!
Shallow embedding of the reconciliation and update engine of the
time-sheet editor repository: time normalization utilities
(`src/lib/utils/time.ts`), the day-alignment / discrepancy comparison
module (`src/lib/utils/comparison.ts`), the bulk attendance update
handler (`src/app/api/attendance/[employeeId]/bulk/route.ts`) and the
status decision of the comparison handler
(`src/app/api/comparison/[employeeId]/route.ts`).

Modelling conventions:
- JavaScript `Date` instants are integers (milliseconds since the Unix
  epoch); calendar dates are `CalDate` triples.  The server runs in UTC
  and the reference display timezone is Asia/Dubai (fixed UTC+4, no
  DST), so timezone conversion is a constant 14400000 ms offset.
- `null`/`undefined`/absent values are `Option`; an invalid `Date`
  produced from an unparseable time string is collapsed to `none`.
- JS `Math.floor(a / b)` on integers is `Int.fdiv`; the JS `%` operator
  is `Int.tmod`; C-style truncating division (used by the civil-calendar
  conversion) is `Int.tdiv`.
- Wall-clock timestamps (`createdAt` / `updatedAt`), Mongo `_id`s and
  the owning `user` reference are omitted from the attendance document:
  the store is modelled per employee, and real-time fields are outside
  the embedding.
-/

namespace TSE

/-- JS `String(n).padStart(2, "0")` for an integer `n`. -/
def pad2Int (n : Int) : String :=
  let s := toString n
  if s.length < 2 then "0" ++ s else s

/-- JS `String(n).padStart(4, "0")` (date-fns `yyyy` year field). -/
def pad4Int (n : Int) : String :=
  let s := toString n
  if s.length < 4 then String.mk (List.replicate (4 - s.length) '0') ++ s else s

/-- JS `Math.round` on a rational: floor of `q + 1/2`. -/
def jsRound (q : ℚ) : Int :=
  ⌊q + 1/2⌋

/-- Split a character list on a separator character, JS
`String.prototype.split` style (`"" → [""]`, adjacent separators give
empty pieces). -/
def splitOnCharAux (sep : Char) : List Char → List (List Char)
  | [] => [[]]
  | c :: cs =>
    let r := splitOnCharAux sep cs
    if c = sep then [] :: r
    else
      match r with
      | [] => [[c]]
      | h :: t => (c :: h) :: t

/-- JS `s.split(sep)` for a single-character separator. -/
def jsSplit (s : String) (sep : Char) : List String :=
  (splitOnCharAux sep s.data).map (fun cs => String.mk cs)

/-- JS `s.trim()`: strip whitespace from both ends. -/
def jsTrim (s : String) : String :=
  String.mk (((s.data.dropWhile Char.isWhitespace).reverse.dropWhile
    Char.isWhitespace).reverse)

/-- Numeric value of a decimal digit character. -/
def digitVal (c : Char) : Nat :=
  c.toNat - 48

/-- Match the regular expression `^(\d{1,2}):(\d{2})$` against a
character list, returning (hours, minutes) on success. -/
def matchHMM : List Char → Option (Nat × Nat)
  | [h1, ':', m1, m2] =>
    if h1.isDigit && m1.isDigit && m2.isDigit then
      some (digitVal h1, digitVal m1 * 10 + digitVal m2)
    else none
  | [h1, h2, ':', m1, m2] =>
    if h1.isDigit && h2.isDigit && m1.isDigit && m2.isDigit then
      some (digitVal h1 * 10 + digitVal h2, digitVal m1 * 10 + digitVal m2)
    else none
  | _ => none

/-- JS `parseInt(s, 10)`: skip leading whitespace, optional sign, then
read leading decimal digits (ignoring any trailing junk); `none` is NaN. -/
def jsParseInt (s : String) : Option Int :=
  let t := (jsTrim s).toList
  let core : List Char → Option Nat := fun cs =>
    let ds := cs.takeWhile Char.isDigit
    if ds.isEmpty then none
    else some (ds.foldl (fun a c => a * 10 + digitVal c) 0)
  match t with
  | '-' :: rest => (core rest).map (fun n => -(n : Int))
  | '+' :: rest => (core rest).map (fun n => (n : Int))
  | cs => (core cs).map (fun n => (n : Int))

/-- JS `Number(s)` restricted to the integral strings the time paths
produce: `""` converts to `0`, a decimal integer (optionally signed) to
its value, anything else to NaN (`none`).  (JS also accepts fractional
and exponent forms; those never arise from `HH:mm` time fields and are
likewise mapped to `none`.) -/
def jsNumberInt (s : String) : Option Int :=
  let t := jsTrim s
  if t = "" then some 0
  else
    let core : List Char → Option Nat := fun cs =>
      if cs.isEmpty then none
      else if cs.all Char.isDigit then
        some (cs.foldl (fun a c => a * 10 + digitVal c) 0)
      else none
    match t.toList with
    | '-' :: rest => (core rest).map (fun n => -(n : Int))
    | '+' :: rest => (core rest).map (fun n => (n : Int))
    | cs => (core cs).map (fun n => (n : Int))

/-- JS truthiness of a nullable string: `null`/`undefined` and `""` are
falsy, every other string truthy. -/
def truthyS : Option String → Bool
  | none => false
  | some s => s ≠ ""

/-! ### Civil calendar

Calendar dates and their conversion to and from epoch day numbers
(day 0 = 1970-01-01), following the standard civil-from-days /
days-from-civil algorithms with C-style truncating division, which is
what the JS `Date` machinery computes for the Gregorian calendar. -/

structure CalDate where
  day : Int
  month : Int
  year : Int
deriving DecidableEq, Repr

/-- Epoch day number of a civil date. -/
def daysFromCivil (y m d : Int) : Int :=
  let y2 := if m ≤ 2 then y - 1 else y
  let era := Int.tdiv (if 0 ≤ y2 then y2 else y2 - 399) 400
  let yoe := y2 - era * 400
  let mp := Int.tmod (m + 9) 12
  let doy := Int.tdiv (153 * mp + 2) 5 + d - 1
  let doe := yoe * 365 + Int.tdiv yoe 4 - Int.tdiv yoe 100 + doy
  era * 146097 + doe - 719468

/-- Civil date of an epoch day number. -/
def civilFromDays (z0 : Int) : CalDate :=
  let z := z0 + 719468
  let era := Int.tdiv (if 0 ≤ z then z else z - 146096) 146097
  let doe := z - era * 146097
  let yoe := Int.tdiv (doe - Int.tdiv doe 1460 + Int.tdiv doe 36524 - Int.tdiv doe 146096) 365
  let y := yoe + era * 400
  let doy := doe - (365 * yoe + Int.tdiv yoe 4 - Int.tdiv yoe 100)
  let mp := Int.tdiv (5 * doy + 2) 153
  let d := doy - Int.tdiv (153 * mp + 2) 5 + 1
  let m := mp + (if mp < 10 then 3 else -9)
  { day := d, month := m, year := if m ≤ 2 then y + 1 else y }

/-- Epoch day number of a `CalDate`. -/
def dateToDays (d : CalDate) : Int :=
  daysFromCivil d.year d.month d.day

/-- Gregorian leap-year test. -/
def isLeapYear (y : Int) : Bool :=
  (Int.tmod y 4 = 0 && Int.tmod y 100 ≠ 0) || Int.tmod y 400 = 0

/-- Number of days in a month (1-12) of a year. -/
def daysInMonth (y m : Int) : Int :=
  if m = 2 then (if isLeapYear y then 29 else 28)
  else if m = 4 ∨ m = 6 ∨ m = 9 ∨ m = 11 then 30
  else 31

/-- `parseDateString` (src/lib/utils/time.ts): date-fns
`parse(dateStr, "dd/MM/yyyy", new Date())`.  The `dd`/`MM` tokens
require exactly two digits, `yyyy` four, and the parse validates the
calendar (month 1-12, day within the month); an unparseable string
yields `none`.  Caveat: `none` is the function's declared
`Date | null` contract, but at runtime date-fns `parse` never returns
null — it returns a truthy Invalid `Date` — so the source's
`if (!date)` guards on this result are dead code.  Consumers whose
theorems assume a parseable date are unaffected; the live
malformed-date behavior of the bulk route is modelled separately by
`processEntryDateFns`. -/
def parseDateString (s : String) : Option CalDate :=
  match s.toList with
  | [d1, d2, '/', m1, m2, '/', y1, y2, y3, y4] =>
    if [d1, d2, m1, m2, y1, y2, y3, y4].all Char.isDigit then
      let dd : Int := (digitVal d1 * 10 + digitVal d2 : Nat)
      let mm : Int := (digitVal m1 * 10 + digitVal m2 : Nat)
      let yy : Int := (digitVal y1 * 1000 + digitVal y2 * 100 + digitVal y3 * 10 + digitVal y4 : Nat)
      if 1 ≤ mm ∧ mm ≤ 12 ∧ 1 ≤ dd ∧ dd ≤ daysInMonth yy mm then
        some { day := dd, month := mm, year := yy }
      else none
    else none
  | _ => none

/-- `formatDateString` (src/lib/utils/time.ts): date-fns
`format(date, "dd/MM/yyyy")`. -/
def formatDateString (d : CalDate) : String :=
  pad2Int d.day ++ "/" ++ pad2Int d.month ++ "/" ++ pad4Int d.year

/-- date-fns `format(date, "EEEE")`: full weekday name (epoch day 0,
1970-01-01, was a Thursday). -/
def dayNameOf (z : Int) : String :=
  (["Thursday", "Friday", "Saturday", "Sunday", "Monday", "Tuesday", "Wednesday"].getD
    (Int.emod z 7).toNat "")

/-! ### Time normalization (src/lib/utils/time.ts) -/

/-- The fixed UTC offset of the reference timezone (Asia/Dubai, UTC+4)
in milliseconds. -/
def dubaiOffsetMs : Int := 14400000

/-- `excelTimeToString(value)`: Excel serial time to `HH:mm`.
`totalMinutes = Math.round(value * 24 * 60)`, hours is
`Math.floor(totalMinutes / 60)`, minutes is `totalMinutes % 60`,
both zero-padded to two digits. -/
def excelTimeToString (value : ℚ) : String :=
  let totalMinutes := jsRound (value * 24 * 60)
  let hours := Int.fdiv totalMinutes 60
  let minutes := Int.tmod totalMinutes 60
  pad2Int hours ++ ":" ++ pad2Int minutes

/-- `secondsToHoursMinutes(seconds)`: seconds to `HH:mm`. -/
def secondsToHoursMinutes (seconds : Int) : String :=
  let hours := Int.fdiv seconds 3600
  let minutes := Int.fdiv (Int.tmod seconds 3600) 60
  pad2Int hours ++ ":" ++ pad2Int minutes

/-- `timeStringToHours(time)`: `HH:mm` to decimal hours.  Returns `0`
for a falsy input or a string that does not split into exactly two `:`
parts; if `parseInt` yields NaN on a part the JS result is NaN, which
is modelled as `none`. -/
def timeStringToHours (time : Option String) : Option ℚ :=
  match time with
  | none => some 0
  | some t =>
    if t = "" then some 0
    else
      match jsSplit t ':' with
      | [p0, p1] =>
        match jsParseInt p0, jsParseInt p1 with
        | some h, some m => some ((h : ℚ) + (m : ℚ) / 60)
        | _, _ => none
      | _ => some 0

/-- Cell values as read from a parsed spreadsheet: `null`/`undefined`,
a number, or a string. -/
inductive CellValue
  | null
  | undef
  | num (v : ℚ)
  | str (s : String)
deriving DecidableEq

/-- JS `String(value).trim()` for the fall-through branch of
`formatTimeValue` on a numeric cell.  Only reached for negative
numbers, which no spreadsheet time cell produces; rendered as the
decimal representation of the rational. -/
def jsNumToString (v : ℚ) : String :=
  toString v

/-- `formatTimeValue(value)` (src/lib/utils/time.ts): decode a
spreadsheet cell into an `HH:mm` string.  Empty markers give `null`;
a number `0 ≤ v < 1` goes through `excelTimeToString`; a number
`v ≥ 1` is decoded by the same `Math.round(value * 24 * 60)` formula
inline; strings are trimmed and passed through. -/
def formatTimeValue (value : CellValue) : Option String :=
  match value with
  | .undef => none
  | .null => none
  | .num v =>
    if 0 ≤ v ∧ v < 1 then some (excelTimeToString v)
    else if 1 ≤ v then
      let totalMinutes := jsRound (v * 24 * 60)
      let hours := Int.fdiv totalMinutes 60
      let minutes := Int.tmod totalMinutes 60
      some (pad2Int hours ++ ":" ++ pad2Int minutes)
    else
      let strValue := jsTrim (jsNumToString v)
      if strValue = "" then none else some strValue
  | .str s =>
    if s = "" ∨ s = "--" then none
    else
      let strValue := jsTrim s
      if (matchHMM strValue.toList).isSome then some strValue
      else if strValue = "" then none else some strValue

/-- `dubaiTimeToUTC(date, time)`: combine a calendar date with a Dubai
wall-clock `HH:mm` string into a UTC instant (ms).  The source splits
on `:` and converts the first two parts with `Number`; a NaN part
yields an Invalid `Date`, modelled as `none` here.  Caveat: an Invalid
`Date` written through the BSON serializer is stored as the epoch-0
instant, not as null; that collapse is applied where the write path is
modelled (`processEntryDateFns`) and is not exercised by any theorem
about the valid-time path. -/
def dubaiTimeToUTC (date : CalDate) (time : String) : Option Int :=
  let parts := jsSplit time ':'
  let hours := match parts with
    | [] => none
    | p :: _ => jsNumberInt p
  let minutes := match parts with
    | _ :: q :: _ => jsNumberInt q
    | _ => none
  match hours, minutes with
  | some h, some m =>
    some (dateToDays date * 86400000 + (h * 60 + m) * 60000 - dubaiOffsetMs)
  | _, _ => none

/-- `utcToDubaiTime(utcDate)`: a UTC instant rendered as a Dubai
wall-clock `HH:mm` string. -/
def utcToDubaiTime (t : Int) : String :=
  let localMin := Int.fdiv (t + dubaiOffsetMs) 60000
  pad2Int (Int.emod (Int.fdiv localMin 60) 24) ++ ":" ++ pad2Int (Int.emod localMin 60)

/-- `utcToDubaiDate(utcDate)`: a UTC instant rendered as a Dubai
calendar date string `dd/MM/yyyy`. -/
def utcToDubaiDate (t : Int) : String :=
  formatDateString (civilFromDays (Int.fdiv (t + dubaiOffsetMs) 86400000))

/-- `timeToMinutes(time)`: minutes since midnight of an `HH:mm` string;
`0` when the string does not match `^(\d{1,2}):(\d{2})$`. -/
def timeToMinutes (time : String) : Nat :=
  match matchHMM time.toList with
  | some (h, m) => h * 60 + m
  | none => 0

/-- `detectCheckoutDate(rowDate, checkInTime, checkOutTime)`
(src/lib/utils/time.ts): if both times are truthy and the check-out
time-of-day is numerically ≤ the check-in time-of-day, the shift is
treated as overnight and the result is the row date plus one calendar
day (the source adds 24 h to the parsed date and reformats; the
reference timezone has no DST); otherwise the row date.  Caveat: the
source's `if (!date) return rowDate` fallback is dead code (date-fns
parse returns a truthy Invalid `Date`), and on an unparseable row date
with out ≤ in the program instead throws inside date-fns `format`;
the theorems about this function assume a parseable row date, where
model and program agree. -/
def detectCheckoutDate (rowDate : String) (checkInTime checkOutTime : Option String) : String :=
  if ¬ (truthyS checkInTime ∧ truthyS checkOutTime) then rowDate
  else
    let inMinutes := timeToMinutes (checkInTime.getD "")
    let outMinutes := timeToMinutes (checkOutTime.getD "")
    if outMinutes ≤ inMinutes then
      match parseDateString rowDate with
      | none => rowDate
      | some date => formatDateString (civilFromDays (dateToDays date + 1))
    else rowDate

/-- `parseDateTimeString(dateStr, timeStr)`: parse a `dd/MM/yyyy` date
and an `HH:mm` time (regex `^(\d{1,2}):(\d{2})$`) into an instant (ms,
server-local).  `Date.setHours` rolls hour values past 23 into the
following days, which the flat arithmetic reproduces.  Caveat: for an
unparseable date the program returns a truthy Invalid `Date` rather
than null (the `if (!date)` guard is dead), so
`calculateNetHoursWithDates` then renders "NaN:NaN"; the theorems
about it are stated on genuinely parsed (date, time) pairs, where
model and program agree. -/
def parseDateTimeString (dateStr timeStr : String) : Option Int :=
  match parseDateString dateStr with
  | none => none
  | some date =>
    match matchHMM timeStr.toList with
    | none => none
    | some (h, m) =>
      some (dateToDays date * 86400000 + ((h : Int) * 60 + (m : Int)) * 60000)

/-- `calculateNetHoursWithDates(checkInDate, checkInTime, checkOutDate,
checkOutTime)` (src/lib/utils/time.ts): duration between two full
(date, time) values as `HH:mm`.  Missing or unparseable inputs and a
negative span (`diffMs < 0`) give `null`. -/
def calculateNetHoursWithDates (checkInDate : String) (checkInTime : Option String)
    (checkOutDate : String) (checkOutTime : Option String) : Option String :=
  if ¬ (truthyS checkInTime ∧ truthyS checkOutTime) then none
  else
    match parseDateTimeString checkInDate (checkInTime.getD ""),
          parseDateTimeString checkOutDate (checkOutTime.getD "") with
    | some checkIn, some checkOut =>
      let diffMs := checkOut - checkIn
      if diffMs < 0 then none
      else
        let diffMinutes := Int.fdiv diffMs 60000
        let hours := Int.fdiv diffMinutes 60
        let minutes := Int.tmod diffMinutes 60
        some (pad2Int hours ++ ":" ++ pad2Int minutes)
    | _, _ => none

/-! ### Data model (src/types/xlsx.ts, src/types/comparison.ts,
src/lib/db/mongodb.ts) -/

/-- `TimeEntry` (src/types/xlsx.ts): one spreadsheet row.  Only the
fields read by the comparison engine are carried (`in3` … `lastOut`,
`lessWork`, `authOT`, `site`, `remarks` are never consumed by it). -/
structure TimeEntry where
  date : String
  day : String
  in1 : Option String
  out2 : Option String
  netWorkHours : Option String
deriving DecidableEq

/-- `EmployeeXlsxData` (src/types/xlsx.ts): the per-employee slice of a
parsed spreadsheet.  Identity and summary fields are not consumed by
the comparison engine and are omitted. -/
structure EmployeeXlsxData where
  entries : List TimeEntry
deriving DecidableEq

/-- A geolocation payload attached to a period
(`checkInLocation` / `checkOutLocation` in src/lib/db/mongodb.ts). -/
structure GeoPoint where
  lat : Option ℚ
  long : Option ℚ
  locationName : Option String
deriving DecidableEq

/-- `Period` (src/lib/db/mongodb.ts): one check-in/check-out span. -/
structure Period where
  startTime : Option Int
  endTime : Option Int
  checkoutType : Option String
  checkInLocation : Option GeoPoint
  checkOutLocation : Option GeoPoint
deriving DecidableEq

/-- `AttendanceDayDocument` (src/lib/db/mongodb.ts): one attendance
record, keyed by the `day` instant.  The collection is modelled per
employee (the `user` key is fixed); `_id`, `justification` and the
wall-clock timestamps are omitted, and `forgotToCheckOut` is the extra
field the bulk handler writes into the schemaless collection. -/
structure AttendanceDayDocument where
  day : Int
  intervals : Option (List Int)
  periods : List Period
  totalSeconds : Int
  isActive : Bool
  isNightWork : Bool
  forgotToCheckOut : Bool
deriving DecidableEq

/-- `DataSource` (src/types/comparison.ts). -/
inductive DataSource
  | xlsx
  | mongodb
deriving DecidableEq

/-- `Discrepancies` (src/types/comparison.ts). -/
structure Discrepancies where
  in1Missing : Bool
  out2Missing : Bool
  lowHours : Bool
deriving DecidableEq

/-- `XlsxDayData` (src/types/comparison.ts). -/
structure XlsxDayData where
  in1 : Option String
  in1Date : String
  out2 : Option String
  out2Date : String
  netWorkHours : Option String
deriving DecidableEq

/-- `MongoDayData` (src/types/comparison.ts). -/
structure MongoDayData where
  firstCheckIn : Option String
  firstCheckInDate : Option String
  lastCheckOut : Option String
  lastCheckOutDate : Option String
  totalHours : Option String
deriving DecidableEq

/-- `CellSelection` (src/types/comparison.ts). -/
structure CellSelection where
  checkIn : DataSource
  checkOut : DataSource
deriving DecidableEq

/-- `DayComparison` (src/types/comparison.ts). -/
structure DayComparison where
  date : String
  dayName : String
  xlsx : XlsxDayData
  mongo : MongoDayData
  discrepancies : Discrepancies
  issues : List String
  selection : CellSelection
deriving DecidableEq

/-- `ComparisonData` (src/types/comparison.ts). -/
structure ComparisonData where
  days : List DayComparison
  totalIssues : Nat
deriving DecidableEq

/-! ### Day alignment and discrepancy detection
(src/lib/utils/comparison.ts, range-aware revision) -/

/-- Low-hours warning band lower bound (`LOW_HOURS_MIN`). -/
def LOW_HOURS_MIN : ℚ := 3

/-- Low-hours warning band upper bound (`LOW_HOURS_MAX`). -/
def LOW_HOURS_MAX : ℚ := 4

/-- The `dd/MM/yyyy` key under which a Mongo attendance record is
indexed: `format(new Date(record.day), "dd/MM/yyyy")` on a UTC
server. -/
def mongoDateKey (r : AttendanceDayDocument) : String :=
  formatDateString (civilFromDays (Int.fdiv r.day 86400000))

/-- JS `Map.get` after inserting a list of entries in order: the last
entry written under a key wins. -/
def lastByKey {α : Type} (key : α → String) (l : List α) (k : String) : Option α :=
  l.reverse.find? (fun e => key e == k)

/-- Lookup in the `xlsxByDate` map of `compareTimeDataForRange`:
populated from `xlsxData.entries` when `xlsxData` is non-null. -/
def xlsxGet (xlsxData : Option EmployeeXlsxData) (k : String) : Option TimeEntry :=
  match xlsxData with
  | none => none
  | some d => lastByKey (fun e => e.date) d.entries k

/-- Lookup in the `mongoByDate` map of `compareTimeDataForRange`. -/
def mongoGet (mongoAttendance : List AttendanceDayDocument) (k : String) :
    Option AttendanceDayDocument :=
  lastByKey mongoDateKey mongoAttendance k

/-- `extractXlsxData(entry)`: the normalized spreadsheet view of a day;
the check-in date is the row date and the check-out date goes through
overnight detection. -/
def extractXlsxData (entry : TimeEntry) : XlsxDayData :=
  { in1 := entry.in1
    in1Date := entry.date
    out2 := entry.out2
    out2Date := detectCheckoutDate entry.date entry.in1 entry.out2
    netWorkHours := entry.netWorkHours }

/-- `extractMongoData(record)`: first check-in and last check-out of a
Mongo record, converted to Dubai wall-clock time and date, with the
legacy `intervals` array as fallback and `totalSeconds` rendered when
positive. -/
def extractMongoData (record : Option AttendanceDayDocument) : MongoDayData :=
  match record with
  | none =>
    { firstCheckIn := none, firstCheckInDate := none
      lastCheckOut := none, lastCheckOutDate := none, totalHours := none }
  | some r =>
    let fromPeriods :=
      if r.periods.length > 0 then
        (match r.periods.head? with
          | some firstPeriod =>
            (firstPeriod.startTime.map utcToDubaiTime,
             firstPeriod.startTime.map utcToDubaiDate)
          | none => (none, none),
         match r.periods.getLast? with
          | some lastPeriod =>
            (lastPeriod.endTime.map utcToDubaiTime,
             lastPeriod.endTime.map utcToDubaiDate)
          | none => (none, none))
      else ((none, none), (none, none))
    let firstCheckIn := fromPeriods.1.1
    let firstCheckInDate := fromPeriods.1.2
    let lastCheckOut := fromPeriods.2.1
    let lastCheckOutDate := fromPeriods.2.2
    let intervalsList := r.intervals.getD []
    let firstCheckIn' :=
      if !truthyS firstCheckIn ∧ intervalsList.length > 0 then
        intervalsList.head?.map utcToDubaiTime
      else firstCheckIn
    let firstCheckInDate' :=
      if !truthyS firstCheckIn ∧ intervalsList.length > 0 then
        intervalsList.head?.map utcToDubaiDate
      else firstCheckInDate
    let lastCheckOut' :=
      if !truthyS lastCheckOut ∧ intervalsList.length > 1 then
        intervalsList.getLast?.map utcToDubaiTime
      else lastCheckOut
    let lastCheckOutDate' :=
      if !truthyS lastCheckOut ∧ intervalsList.length > 1 then
        intervalsList.getLast?.map utcToDubaiDate
      else lastCheckOutDate
    { firstCheckIn := firstCheckIn'
      firstCheckInDate := firstCheckInDate'
      lastCheckOut := lastCheckOut'
      lastCheckOutDate := lastCheckOutDate'
      totalHours :=
        if r.totalSeconds > 0 then some (secondsToHoursMinutes r.totalSeconds) else none }

/-- `detectDiscrepancies(xlsx, mongo)`: missing-in-Mongo flags and the
fixed `[3, 4)` low-hours band on the spreadsheet's net work hours
(`totalHours > 0 && totalHours >= LOW_HOURS_MIN && totalHours <
LOW_HOURS_MAX`; NaN comparisons are all false). -/
def detectDiscrepancies (xlsx : XlsxDayData) (mongo : MongoDayData) : Discrepancies :=
  let in1Missing := truthyS xlsx.in1 && !truthyS mongo.firstCheckIn
  let out2Missing := truthyS xlsx.out2 && !truthyS mongo.lastCheckOut
  let lowHours :=
    if truthyS xlsx.netWorkHours then
      match timeStringToHours xlsx.netWorkHours with
      | none => false
      | some totalHours =>
        decide (0 < totalHours) && decide (LOW_HOURS_MIN ≤ totalHours) &&
          decide (totalHours < LOW_HOURS_MAX)
    else false
  { in1Missing := in1Missing, out2Missing := out2Missing, lowHours := lowHours }

/-- `generateIssues(discrepancies)`: one fixed human-readable string
per true flag, in check-in, check-out, low-hours order. -/
def generateIssues (discrepancies : Discrepancies) : List String :=
  (if discrepancies.in1Missing then ["XLSX has check-in but MongoDB is missing"] else []) ++
  (if discrepancies.out2Missing then ["XLSX has check-out but MongoDB is missing"] else []) ++
  (if discrepancies.lowHours then
    ["Net work hours between 3-4 hours - verify with MongoDB"] else [])

/-- `createEmptyDayComparison(date)`: the row for a calendar day (epoch
day number `z`) that is present in neither source. -/
def createEmptyDayComparison (z : Int) : DayComparison :=
  let dateKey := formatDateString (civilFromDays z)
  { date := dateKey
    dayName := dayNameOf z
    xlsx := { in1 := none, in1Date := dateKey, out2 := none, out2Date := dateKey,
              netWorkHours := none }
    mongo := { firstCheckIn := none, firstCheckInDate := none, lastCheckOut := none,
               lastCheckOutDate := none, totalHours := none }
    discrepancies := { in1Missing := false, out2Missing := false, lowHours := false }
    issues := []
    selection := { checkIn := .xlsx, checkOut := .xlsx } }

/-- date-fns `eachDayOfInterval({start, end})` with day-valued bounds:
every epoch day from `s` to `e` inclusive, ascending. -/
def eachDayOfInterval (s e : Int) : List Int :=
  (List.range (e - s + 1).toNat).map (fun (i : Nat) => s + (i : Int))

/-- The loop body of `compareTimeDataForRange`: the `DayComparison`
built for one calendar day of the interval. -/
def buildDayComparison (xlsxData : Option EmployeeXlsxData)
    (mongoAttendance : List AttendanceDayDocument) (z : Int) : DayComparison :=
  let dateKey := formatDateString (civilFromDays z)
  let xlsxEntry := xlsxGet xlsxData dateKey
  let mongoRecord := mongoGet mongoAttendance dateKey
  if xlsxEntry.isSome ∨ mongoRecord.isSome then
    let xlsxDay :=
      match xlsxEntry with
      | some e => extractXlsxData e
      | none =>
        { in1 := none, in1Date := dateKey, out2 := none, out2Date := dateKey,
          netWorkHours := none }
    let mongoDay := extractMongoData mongoRecord
    let discrepancies := detectDiscrepancies xlsxDay mongoDay
    let issues := generateIssues discrepancies
    { date := dateKey
      dayName := match xlsxEntry with | some e => e.day | none => dayNameOf z
      xlsx := xlsxDay
      mongo := mongoDay
      discrepancies := discrepancies
      issues := issues
      selection :=
        { checkIn := if xlsxEntry.isSome then .xlsx else .mongodb
          checkOut := if xlsxEntry.isSome then .xlsx else .mongodb } }
  else createEmptyDayComparison z

/-- `compareTimeDataForRange(startDate, endDate, xlsxData,
mongoAttendance)` (src/lib/utils/comparison.ts): one `DayComparison`
per calendar day of the closed interval, with `totalIssues` the sum of
per-day issue counts.  The date bounds are epoch day numbers (the
route passes date-valued instants; `eachDayOfInterval` walks whole
calendar days). -/
def compareTimeDataForRange (startDate endDate : Int)
    (xlsxData : Option EmployeeXlsxData)
    (mongoAttendance : List AttendanceDayDocument) : ComparisonData :=
  let days := (eachDayOfInterval startDate endDate).map
    (buildDayComparison xlsxData mongoAttendance)
  { days := days
    totalIssues := (days.map (fun day => day.issues.length)).sum }

/-! ### Commit engine
(src/app/api/attendance/[employeeId]/bulk/route.ts) -/

/-- `DayUpdate` (src/types/comparison.ts): one edited day of a bulk
update batch. -/
structure DayUpdate where
  date : String
  checkInDate : String
  checkInTime : Option String
  checkOutDate : String
  checkOutTime : Option String
deriving DecidableEq

/-- Result of processing one batch entry: the store afterwards, the
entry's contribution to `updatedCount` and to `errors`. -/
structure EntryResult where
  store : List AttendanceDayDocument
  updated : Nat
  errors : List String
deriving DecidableEq

/-- State of a whole batch: final store, `updatedCount` and `errors`. -/
structure BatchState where
  store : List AttendanceDayDocument
  updatedCount : Nat
  errors : List String
deriving DecidableEq

/-- `BulkUpdateResponse` (src/types/comparison.ts): the response body
(`errors` is omitted — `undefined` — when empty). -/
structure BulkUpdateResponse where
  success : Bool
  updatedCount : Nat
  errors : Option (List String)
deriving DecidableEq

/-- Replace the first element satisfying `q` by its image under `f`
(Mongo `findOne` followed by `updateOne` on the found `_id`); `none`
when no element matches. -/
def updateFirstMatch {α : Type} (q : α → Bool) (f : α → α) :
    List α → Option (List α)
  | [] => none
  | r :: rs =>
    if q r then some (f r :: rs)
    else (updateFirstMatch q f rs).map (fun rs2 => r :: rs2)

/-- JS `lastPeriod?.checkoutType || "manual"`: the default kicks in for
a missing or empty tag. -/
def checkoutTypeOr (ct : Option String) : String :=
  match ct with
  | none => "manual"
  | some s => if s = "" then "manual" else s

/-- The `findOne` filter of the bulk POST handler:
`day: { $gte: dayUTC, $lte: dayEndUTC }` where `dayEndUTC` is
`dayUTC + 23:59:59.999`. -/
def inDayRange (dayUTC : Int) (r : AttendanceDayDocument) : Bool :=
  decide (dayUTC ≤ r.day) && decide (r.day ≤ dayUTC + 86399999)

/-- The `if (existingRecord)` branch of the bulk POST loop: replace the
record's whole period list with a single period carrying the new
start/end instants, preserving the prior first-period check-in
location, last-period check-out location and checkout-type tag, set the
recomputed `totalSeconds`, reset `forgotToCheckOut` and `$unset` the
legacy `intervals`. -/
def replacePeriods (checkInTimeUTC checkOutTimeUTC : Option Int) (totalSeconds : Int)
    (existing : AttendanceDayDocument) : AttendanceDayDocument :=
  let firstPeriod := existing.periods.head?
  let lastPeriod := existing.periods.getLast?
  let checkInLocation := firstPeriod.bind (fun p => p.checkInLocation)
  let checkOutLocation := lastPeriod.bind (fun p => p.checkOutLocation)
  let checkoutType := checkoutTypeOr (lastPeriod.bind (fun p => p.checkoutType))
  let newPeriod : Period :=
    { startTime := checkInTimeUTC
      endTime := checkOutTimeUTC
      checkoutType := some checkoutType
      checkInLocation := checkInLocation
      checkOutLocation := checkOutLocation }
  { existing with
      periods := [newPeriod]
      totalSeconds := totalSeconds
      forgotToCheckOut := false
      intervals := none }

/-- The `else` (insert) branch of the bulk POST loop: a fresh record
keyed at UTC midnight of the row date, with a single period, a default
`"manual"` checkout tag and no locations. -/
def freshRecord (dayUTC : Int) (checkInTimeUTC checkOutTimeUTC : Option Int)
    (totalSeconds : Int) : AttendanceDayDocument :=
  { day := dayUTC
    intervals := none
    periods := [{ startTime := checkInTimeUTC
                  endTime := checkOutTimeUTC
                  checkoutType := some "manual"
                  checkInLocation := none
                  checkOutLocation := none }]
    totalSeconds := totalSeconds
    isActive := false
    isNightWork := false
    forgotToCheckOut := false }

/-- The write step of the bulk POST loop: `findOne` on the row's
day range, then either `updateOne` on the found record (replace its
periods) or `insertOne` of a fresh record; both branches increment
`updatedCount` without error, so the store transition is factored
here. -/
def applyUpsert (dayUTC : Int) (checkInTimeUTC checkOutTimeUTC : Option Int)
    (totalSeconds : Int) (store : List AttendanceDayDocument) :
    List AttendanceDayDocument :=
  match updateFirstMatch (inDayRange dayUTC)
      (replacePeriods checkInTimeUTC checkOutTimeUTC totalSeconds) store with
  | some store2 => store2
  | none => store ++ [freshRecord dayUTC checkInTimeUTC checkOutTimeUTC totalSeconds]

/-- The body of the `for (const update of body.updates)` loop of the
bulk POST handler as written: parse the dates, resolve the
check-in/check-out instants, compute `totalSeconds` (clamped at zero),
and either replace the periods of the existing record for the row's
calendar day or insert a fresh record keyed at UTC midnight of the row
date.  Caveat: the three "Invalid ... format" error branches follow the
route's written guards, which at runtime are dead code because date-fns
parse never returns null; the behavior the program actually exhibits on
a malformed date is `processEntryDateFns`.  On entries whose dates
parse, this function and the program agree. -/
def processEntry (update : DayUpdate) (store : List AttendanceDayDocument) : EntryResult :=
  match parseDateString update.date with
  | none => { store := store, updated := 0,
              errors := ["Invalid row date format: " ++ update.date] }
  | some rowDate =>
    let checkInDate := parseDateString update.checkInDate
    if checkInDate.isNone ∧ truthyS update.checkInTime then
      { store := store, updated := 0,
        errors := ["Invalid check-in date format: " ++ update.checkInDate] }
    else
      let checkOutDate := parseDateString update.checkOutDate
      if checkOutDate.isNone ∧ truthyS update.checkOutTime then
        { store := store, updated := 0,
          errors := ["Invalid check-out date format: " ++ update.checkOutDate] }
      else
        let dayUTC := dateToDays rowDate * 86400000
        let checkInTimeUTC : Option Int :=
          match update.checkInTime, checkInDate with
          | some t, some d => if t ≠ "" then dubaiTimeToUTC d t else none
          | _, _ => none
        let checkOutTimeUTC : Option Int :=
          match update.checkOutTime, checkOutDate with
          | some t, some d => if t ≠ "" then dubaiTimeToUTC d t else none
          | _, _ => none
        let totalSeconds : Int :=
          match checkInTimeUTC, checkOutTimeUTC with
          | some tin, some tout =>
            let s := Int.fdiv (tout - tin) 1000
            if s < 0 then 0 else s
          | _, _ => 0
        { store := applyUpsert dayUTC checkInTimeUTC checkOutTimeUTC totalSeconds store
          updated := 1, errors := [] }

/-- The bulk POST handler's loop over `body.updates`: entries are
processed in order, each independently contributing to the running
store, `updatedCount` and `errors`. -/
def processBatch : List DayUpdate → List AttendanceDayDocument → BatchState
  | [], store => { store := store, updatedCount := 0, errors := [] }
  | u :: us, store =>
    let r := processEntry u store
    let rest := processBatch us r.store
    { store := rest.store
      updatedCount := r.updated + rest.updatedCount
      errors := r.errors ++ rest.errors }

/-- The response the bulk POST handler builds from the finished loop:
`success = (errors.length === 0)` and `errors` only present when
non-empty. -/
def mkBulkResponse (b : BatchState) : BulkUpdateResponse :=
  { success := b.errors.length == 0
    updatedCount := b.updatedCount
    errors := if b.errors.length > 0 then some b.errors else none }

/-! ### Comparison handler status decision
(src/app/api/comparison/[employeeId]/route.ts) -/

/-- The fields of the Mongo user document the comparison handler's
error decision can observe (presence is all it uses). -/
structure UserDocument where
  dateOfJoining : Option Int
deriving DecidableEq

/-- The status code produced by the comparison GET handler's error
check: `xlsxData` is only resolved when the spreadsheet store is
loaded, and the handler returns 404 when both `xlsxData` and the
directory user are absent, otherwise proceeds (200).  (The catch-all
500 path for thrown exceptions is outside the pure model.) -/
def getComparisonStatus (xlsxLoaded : Bool)
    (xlsxEmployee : Option EmployeeXlsxData) (user : Option UserDocument) : Nat :=
  let xlsxData := if xlsxLoaded then xlsxEmployee else none
  if xlsxData.isNone ∧ user.isNone then 404 else 200

/-- The bulk POST loop body as the program actually executes it on a
malformed row date.  date-fns `parse` never returns null: an
unparseable string yields a truthy Invalid `Date`, so the route's
`if (!rowDate)` guard — and the check-in/check-out date guards — never
fire and none of the "Invalid ... date format" errors can be pushed.
An Invalid `Date` used as the `day` key or as a query bound carries
NaN milliseconds, which the BSON serializer stores as the epoch-0
instant, so the malformed entry is upserted with `day = 0` and the
`findOne` range collapses to `[0, 0]`.  (When a check-in or check-out
date itself fails to parse, or a time part is NaN, the written
start/end instants are likewise Invalid Dates stored as epoch 0,
modelled here by the same collapse; the divergence theorem's input
keeps those fields valid.) -/
def processEntryDateFns (update : DayUpdate) (store : List AttendanceDayDocument) :
    EntryResult :=
  let rowDate := parseDateString update.date
  let checkInDate := parseDateString update.checkInDate
  let checkOutDate := parseDateString update.checkOutDate
  let dayUTC : Int :=
    match rowDate with
    | some d => dateToDays d * 86400000
    | none => 0
  let dayEndUTC : Int :=
    match rowDate with
    | some d => dateToDays d * 86400000 + 86399999
    | none => 0
  let checkInTimeUTC : Option Int :=
    match update.checkInTime with
    | some t =>
      if t ≠ "" then
        some (match checkInDate with
          | some d => (dubaiTimeToUTC d t).getD 0
          | none => 0)
      else none
    | none => none
  let checkOutTimeUTC : Option Int :=
    match update.checkOutTime with
    | some t =>
      if t ≠ "" then
        some (match checkOutDate with
          | some d => (dubaiTimeToUTC d t).getD 0
          | none => 0)
      else none
    | none => none
  let totalSeconds : Int :=
    match checkInTimeUTC, checkOutTimeUTC with
    | some tin, some tout =>
      let sec := Int.fdiv (tout - tin) 1000
      if sec < 0 then 0 else sec
    | _, _ => 0
  match updateFirstMatch
      (fun r => decide (dayUTC ≤ r.day) && decide (r.day ≤ dayEndUTC))
      (replacePeriods checkInTimeUTC checkOutTimeUTC totalSeconds) store with
  | some store2 => { store := store2, updated := 1, errors := [] }
  | none =>
    { store := store ++ [freshRecord dayUTC checkInTimeUTC checkOutTimeUTC totalSeconds]
      updated := 1, errors := [] }

/-- The bulk POST handler's loop over `body.updates` under the actual
date-fns parse behavior of `processEntryDateFns`. -/
def processBatchDateFns : List DayUpdate → List AttendanceDayDocument → BatchState
  | [], store => { store := store, updatedCount := 0, errors := [] }
  | u :: us, store =>
    let r := processEntryDateFns u store
    let rest := processBatchDateFns us r.store
    { store := rest.store
      updatedCount := r.updated + rest.updatedCount
      errors := r.errors ++ rest.errors }

/-! ### Helper lemmas -/

theorem checkoutTypeOr_idem (z : Option String) :
    checkoutTypeOr (some (checkoutTypeOr z)) = checkoutTypeOr z := by
  cases z with
  | none => rfl
  | some s => by_cases h : s = "" <;> simp [checkoutTypeOr, h]

theorem replacePeriods_day (ci co : Option Int) (T : Int) (x : AttendanceDayDocument) :
    (replacePeriods ci co T x).day = x.day := rfl

theorem replacePeriods_idem (ci co : Option Int) (T : Int) (x : AttendanceDayDocument) :
    replacePeriods ci co T (replacePeriods ci co T x) = replacePeriods ci co T x := by
  simp [replacePeriods, checkoutTypeOr_idem]

theorem replacePeriods_fresh (d : Int) (ci co : Option Int) (T : Int) :
    replacePeriods ci co T (freshRecord d ci co T) = freshRecord d ci co T := by
  simp [replacePeriods, freshRecord, checkoutTypeOr]

theorem inDayRange_fresh (d : Int) (ci co : Option Int) (T : Int) :
    inDayRange d (freshRecord d ci co T) = true := by
  simp [inDayRange, freshRecord]

theorem updateFirstMatch_none {α : Type} (q : α → Bool) (f : α → α) :
    ∀ l : List α, updateFirstMatch q f l = none → ∀ r ∈ l, q r = false := by
  intro l
  induction l with
  | nil => intro _ r hr; cases hr
  | cons a as ih =>
    intro h r hr
    by_cases hqa : q a = true
    · simp [updateFirstMatch, hqa] at h
    · rcases List.mem_cons.mp hr with rfl | hr2
      · simpa using hqa
      · simp [updateFirstMatch, hqa] at h
        exact ih h r hr2

theorem updateFirstMatch_stable {α : Type} (q : α → Bool) (f : α → α)
    (hq : ∀ x, q x = true → q (f x) = true)
    (hf : ∀ x, q x = true → f (f x) = f x) :
    ∀ l l' : List α, updateFirstMatch q f l = some l' →
      updateFirstMatch q f l' = some l' := by
  intro l
  induction l with
  | nil => intro l' h; simp [updateFirstMatch] at h
  | cons a as ih =>
    intro l' h
    by_cases hqa : q a = true
    · simp [updateFirstMatch, hqa] at h
      subst h
      simp [updateFirstMatch, hq a hqa, hf a hqa]
    · simp [updateFirstMatch, hqa] at h
      obtain ⟨as2, h2, rfl⟩ := h
      simp [updateFirstMatch, hqa, ih as2 h2]

theorem updateFirstMatch_append_fresh {α : Type} (q : α → Bool) (f : α → α)
    (n : α) (hqn : q n = true) (hfn : f n = n) :
    ∀ l : List α, updateFirstMatch q f l = none →
      updateFirstMatch q f (l ++ [n]) = some (l ++ [n]) := by
  intro l
  induction l with
  | nil => intro _; simp [updateFirstMatch, hqn, hfn]
  | cons a as ih =>
    intro h
    by_cases hqa : q a = true
    · simp [updateFirstMatch, hqa] at h
    · simp [updateFirstMatch, hqa] at h ⊢
      simp [ih h]

theorem updateFirstMatch_find {α : Type} (q : α → Bool) (f : α → α)
    (hq : ∀ x, q x = true → q (f x) = true) :
    ∀ l l' : List α, updateFirstMatch q f l = some l' →
      ∃ x, q x = true ∧ l'.find? q = some (f x) := by
  intro l
  induction l with
  | nil => intro l' h; simp [updateFirstMatch] at h
  | cons a as ih =>
    intro l' h
    by_cases hqa : q a = true
    · simp [updateFirstMatch, hqa] at h
      subst h
      exact ⟨a, hqa, by simp [List.find?_cons_of_pos, hq a hqa]⟩
    · simp [updateFirstMatch, hqa] at h
      obtain ⟨as2, h2, rfl⟩ := h
      obtain ⟨x, hx, hfind⟩ := ih as2 h2
      exact ⟨x, hx, by simp [List.find?_cons_of_neg, hqa, hfind]⟩

theorem find_append_singleton {α : Type} (q : α → Bool) (n : α) (hqn : q n = true) :
    ∀ l : List α, (∀ r ∈ l, q r = false) → (l ++ [n]).find? q = some n := by
  intro l
  induction l with
  | nil => intro _; simp [List.find?_cons_of_pos, hqn]
  | cons a as ih =>
    intro h
    have hqa : q a = false := h a (List.mem_cons_self a as)
    have := ih (fun r hr => h r (List.mem_cons_of_mem a hr))
    simp [List.find?_cons_of_neg, hqa, this]

theorem applyUpsert_idem (D : Int) (ci co : Option Int) (T : Int)
    (s : List AttendanceDayDocument) :
    applyUpsert D ci co T (applyUpsert D ci co T s) = applyUpsert D ci co T s := by
  have hq : ∀ x, inDayRange D x = true →
      inDayRange D (replacePeriods ci co T x) = true := by
    intro x hx
    simpa [inDayRange, replacePeriods_day] using hx
  have hf : ∀ x, inDayRange D x = true →
      replacePeriods ci co T (replacePeriods ci co T x) = replacePeriods ci co T x :=
    fun x _ => replacePeriods_idem ci co T x
  cases hu : updateFirstMatch (inDayRange D) (replacePeriods ci co T) s with
  | some s2 =>
    have hs := updateFirstMatch_stable (inDayRange D) (replacePeriods ci co T) hq hf s s2 hu
    simp [applyUpsert, hu, hs]
  | none =>
    have happ := updateFirstMatch_append_fresh (inDayRange D) (replacePeriods ci co T)
      (freshRecord D ci co T) (inDayRange_fresh D ci co T)
      (replacePeriods_fresh D ci co T) s hu
    simp [applyUpsert, hu, happ]

/-! ### Claim theorems -/

/-- C2: the bulk commit is idempotent.  Applying any update entry twice
to any attendance store leaves the store exactly as applying it once
does (the periods list is fully replaced, never appended to); in
particular the example entry `date 05/03/2026, checkInTime 08:00,
checkOutTime 17:00`, applied twice from an empty store, ends with
exactly one record holding exactly one period and
`totalSeconds = 32400`. -/
theorem bulk_update_idempotent :
    (∀ (u : DayUpdate) (s : List AttendanceDayDocument),
      (processEntry u (processEntry u s).store).store = (processEntry u s).store) ∧
    ((processBatch
        [{ date := "05/03/2026", checkInDate := "05/03/2026", checkInTime := some "08:00",
           checkOutDate := "05/03/2026", checkOutTime := some "17:00" },
         { date := "05/03/2026", checkInDate := "05/03/2026", checkInTime := some "08:00",
           checkOutDate := "05/03/2026", checkOutTime := some "17:00" }] []).store.map
      (fun r => (r.periods.length, r.totalSeconds)) = [(1, 32400)]) := by
  constructor
  · intro u s
    cases hd : parseDateString u.date with
    | none => simp [processEntry, hd]
    | some rowDate =>
      simp only [processEntry, hd]
      split_ifs with h1 h2
      · rfl
      · rfl
      · exact applyUpsert_idem _ _ _ _ s
  · decide

/-- C6: the program diverges from the claim at the spec's own batch.
The claim (and the spec) say a three-entry batch with one malformed
date returns `updatedCount = 2` with exactly one entry in `errors`,
but date-fns `parse` returns a truthy Invalid `Date` for
"2026-03-06", the route's `if (!rowDate)` guard never fires, and the
malformed entry is silently upserted at the epoch-0 day: the handler
actually returns `updatedCount = 3`, no `errors` field, and
`success = true`, with the stray record keyed at day 0 carrying the
entry's full 32400-second period. -/
theorem batch_malformed_date_divergence :
    (mkBulkResponse (processBatchDateFns
        [⟨"05/03/2026", "05/03/2026", some "08:00", "05/03/2026", some "17:00"⟩,
         ⟨"2026-03-06", "06/03/2026", some "08:00", "06/03/2026", some "17:00"⟩,
         ⟨"07/03/2026", "07/03/2026", some "08:00", "07/03/2026", some "17:00"⟩]
        [])).updatedCount = 3 ∧
    (mkBulkResponse (processBatchDateFns
        [⟨"05/03/2026", "05/03/2026", some "08:00", "05/03/2026", some "17:00"⟩,
         ⟨"2026-03-06", "06/03/2026", some "08:00", "06/03/2026", some "17:00"⟩,
         ⟨"07/03/2026", "07/03/2026", some "08:00", "07/03/2026", some "17:00"⟩]
        [])).errors = none ∧
    (mkBulkResponse (processBatchDateFns
        [⟨"05/03/2026", "05/03/2026", some "08:00", "05/03/2026", some "17:00"⟩,
         ⟨"2026-03-06", "06/03/2026", some "08:00", "06/03/2026", some "17:00"⟩,
         ⟨"07/03/2026", "07/03/2026", some "08:00", "07/03/2026", some "17:00"⟩]
        [])).success = true ∧
    (processBatchDateFns
        [⟨"05/03/2026", "05/03/2026", some "08:00", "05/03/2026", some "17:00"⟩,
         ⟨"2026-03-06", "06/03/2026", some "08:00", "06/03/2026", some "17:00"⟩,
         ⟨"07/03/2026", "07/03/2026", some "08:00", "07/03/2026", some "17:00"⟩]
        []).store.map (fun r => (r.day, r.totalSeconds, r.periods.length)) =
      [(dateToDays ⟨5, 3, 2026⟩ * 86400000, 32400, 1),
       (0, 32400, 1),
       (dateToDays ⟨7, 3, 2026⟩ * 86400000, 32400, 1)] := by
  refine ⟨by decide, by decide, by decide, by decide⟩

/-- C10: a batch entry whose row date parses but which carries neither
a check-in time nor a check-out time is still upserted: it counts
toward `updatedCount` with no error, and afterwards the record found
for the row's calendar day holds exactly one period with both instants
null and `totalSeconds = 0`, whether the record pre-existed or was
created. -/
theorem bulk_no_time_upsert (u : DayUpdate) (s : List AttendanceDayDocument) (d : CalDate)
    (hd : parseDateString u.date = some d)
    (hci : u.checkInTime = none) (hco : u.checkOutTime = none) :
    (processEntry u s).updated = 1 ∧ (processEntry u s).errors = [] ∧
    ∃ rec p,
      ((processEntry u s).store).find? (inDayRange (dateToDays d * 86400000)) = some rec ∧
      rec.periods = [p] ∧ p.startTime = none ∧ p.endTime = none ∧ rec.totalSeconds = 0 := by
  have hmain : processEntry u s =
      { store := applyUpsert (dateToDays d * 86400000) none none 0 s,
        updated := 1, errors := [] } := by
    simp [processEntry, hd, hci, hco, truthyS]
  rw [hmain]
  refine ⟨rfl, rfl, ?_⟩
  have hq : ∀ x, inDayRange (dateToDays d * 86400000) x = true →
      inDayRange (dateToDays d * 86400000) (replacePeriods none none 0 x) = true := by
    intro x hx
    simpa [inDayRange, replacePeriods_day] using hx
  cases hu : updateFirstMatch (inDayRange (dateToDays d * 86400000))
      (replacePeriods none none 0) s with
  | some s2 =>
    obtain ⟨x, hx, hfind⟩ := updateFirstMatch_find _ _ hq s s2 hu
    exact ⟨replacePeriods none none 0 x, _, by simp [applyUpsert, hu, hfind], rfl, rfl, rfl, rfl⟩
  | none =>
    have hall := updateFirstMatch_none _ _ s hu
    have hfind := find_append_singleton (inDayRange (dateToDays d * 86400000))
      (freshRecord (dateToDays d * 86400000) none none 0)
      (inDayRange_fresh _ none none 0) s hall
    exact ⟨freshRecord (dateToDays d * 86400000) none none 0, _,
      by simp [applyUpsert, hu, hfind], rfl, rfl, rfl, rfl⟩

/-- C10 witness: the concrete no-time entry for 05/03/2026 applied to
an empty store. -/
theorem bulk_no_time_upsert_witness :
    (processEntry (⟨"05/03/2026", "05/03/2026", none, "05/03/2026", none⟩ : DayUpdate) []).updated = 1 ∧
    (processEntry (⟨"05/03/2026", "05/03/2026", none, "05/03/2026", none⟩ : DayUpdate) []).errors = [] ∧
    ∃ rec p,
      ((processEntry (⟨"05/03/2026", "05/03/2026", none, "05/03/2026", none⟩ : DayUpdate) []).store).find?
        (inDayRange (dateToDays { day := 5, month := 3, year := 2026 } * 86400000)) = some rec ∧
      rec.periods = [p] ∧ p.startTime = none ∧ p.endTime = none ∧ rec.totalSeconds = 0 :=
  bulk_no_time_upsert
    (⟨"05/03/2026", "05/03/2026", none, "05/03/2026", none⟩ : DayUpdate) []
    { day := 5, month := 3, year := 2026 } (by decide) rfl rfl

theorem buildDayComparison_date (x : Option EmployeeXlsxData)
    (m : List AttendanceDayDocument) (z : Int) :
    (buildDayComparison x m z).date = formatDateString (civilFromDays z) := by
  simp only [buildDayComparison]
  split
  · rfl
  · rfl

/-- C1: for every closed day interval with `start ≤ end` and any
source data, `compareTimeDataForRange` produces exactly
`end - start + 1` rows, and the `i`-th row is keyed by calendar day
`start + i` — one `DayComparison` per day, ascending. -/
theorem range_alignment (s e : Int) (x : Option EmployeeXlsxData)
    (m : List AttendanceDayDocument) (hse : s ≤ e) :
    (compareTimeDataForRange s e x m).days.length = (e - s + 1).toNat ∧
    ∀ (i : Nat) (hi : i < (compareTimeDataForRange s e x m).days.length),
      ((compareTimeDataForRange s e x m).days.get ⟨i, hi⟩).date =
        formatDateString (civilFromDays (s + (i : Int))) := by
  constructor
  · simp only [compareTimeDataForRange, eachDayOfInterval, List.length_map,
      List.length_range]
  · intro i hi
    simp only [compareTimeDataForRange, eachDayOfInterval, List.get_eq_getElem,
      List.getElem_map, List.getElem_range, buildDayComparison_date]

/-- C1 witness: a three-day interval with no source data still yields
three rows. -/
theorem range_alignment_witness :
    (compareTimeDataForRange 0 2 none []).days.length = ((2 : Int) - 0 + 1).toNat :=
  (range_alignment 0 2 none [] (by decide)).1

theorem buildDayComparison_selection (x : Option EmployeeXlsxData)
    (m : List AttendanceDayDocument) (z : Int) :
    ((buildDayComparison x m z).selection.checkIn =
      (buildDayComparison x m z).selection.checkOut) ∧
    ((buildDayComparison x m z).selection.checkIn = DataSource.xlsx ↔
      ((xlsxGet x (formatDateString (civilFromDays z))).isSome ∨
       (mongoGet m (formatDateString (civilFromDays z))).isNone)) := by
  cases hxe : xlsxGet x (formatDateString (civilFromDays z)) with
  | some en =>
    cases hme : mongoGet m (formatDateString (civilFromDays z)) <;>
      simp [buildDayComparison, hxe, hme]
  | none =>
    cases hme : mongoGet m (formatDateString (civilFromDays z)) <;>
      simp [buildDayComparison, createEmptyDayComparison, hxe, hme]

/-- C5 (amended): in every aligned day the check-in and check-out
default selections agree, and they name the spreadsheet source exactly
when the spreadsheet has an entry for the day — whether or not that
entry carries any time value — or when neither source has data for the
day; only a day present in the database alone defaults to the database
source. -/
theorem selection_policy (s e : Int) (x : Option EmployeeXlsxData)
    (m : List AttendanceDayDocument) (i : Nat)
    (hi : i < (compareTimeDataForRange s e x m).days.length) :
    ((compareTimeDataForRange s e x m).days.get ⟨i, hi⟩).selection.checkIn =
      ((compareTimeDataForRange s e x m).days.get ⟨i, hi⟩).selection.checkOut ∧
    (((compareTimeDataForRange s e x m).days.get ⟨i, hi⟩).selection.checkIn =
        DataSource.xlsx ↔
      ((xlsxGet x (formatDateString (civilFromDays (s + (i : Int))))).isSome ∨
       (mongoGet m (formatDateString (civilFromDays (s + (i : Int))))).isNone)) := by
  have hg : (compareTimeDataForRange s e x m).days.get ⟨i, hi⟩ =
      buildDayComparison x m (s + (i : Int)) := by
    simp only [compareTimeDataForRange, eachDayOfInterval, List.get_eq_getElem,
      List.getElem_map, List.getElem_range]
  rw [hg]
  exact buildDayComparison_selection x m (s + (i : Int))

/-- C5 witness: instantiating the amended selection policy on a
one-day interval with no source data. -/
theorem selection_policy_witness :
    ((compareTimeDataForRange 0 0 none []).days.get
        ⟨0, by decide⟩).selection.checkIn =
      ((compareTimeDataForRange 0 0 none []).days.get
        ⟨0, by decide⟩).selection.checkOut ∧
    (((compareTimeDataForRange 0 0 none []).days.get
        ⟨0, by decide⟩).selection.checkIn = DataSource.xlsx ↔
      ((xlsxGet none (formatDateString (civilFromDays (0 + ((0 : Nat) : Int))))).isSome ∨
       (mongoGet [] (formatDateString (civilFromDays (0 + ((0 : Nat) : Int))))).isNone)) :=
  selection_policy 0 0 none [] 0 (by decide)

/-- C5 counterexample: a day whose spreadsheet entry exists but holds
no time value at all, while the database has a check-in, still defaults
to the spreadsheet source — refuting the claim that the database is
preferred whenever the spreadsheet has no time value for the day. -/
theorem selection_policy_counterexample :
    ((compareTimeDataForRange (daysFromCivil 2026 1 1) (daysFromCivil 2026 1 1)
        (some ⟨[(⟨"01/01/2026", "Thursday", none, none, none⟩ : TimeEntry)]⟩)
        [(⟨daysFromCivil 2026 1 1 * 86400000, none,
           [(⟨some (daysFromCivil 2026 1 1 * 86400000 + 28800000), none, none, none,
              none⟩ : Period)],
           0, false, false, false⟩ : AttendanceDayDocument)]).days.map
      (fun c => (c.selection.checkIn, c.xlsx.in1, c.xlsx.out2, c.xlsx.netWorkHours,
        c.mongo.firstCheckIn))) =
      [(DataSource.xlsx, none, none, none, some "12:00")] := by
  decide

/-- C3: overnight detection.  For a parseable row date and two
non-empty time strings, the detected check-out date is the row date
when the check-out time-of-day is numerically greater than the
check-in time-of-day, and the row date plus one calendar day when it is
less than or equal. -/
theorem overnight_detection (rowDate : String) (d : CalDate) (ci co : String)
    (hd : parseDateString rowDate = some d) (hci : ci ≠ "") (hco : co ≠ "") :
    (timeToMinutes ci < timeToMinutes co →
      detectCheckoutDate rowDate (some ci) (some co) = rowDate) ∧
    (timeToMinutes co ≤ timeToMinutes ci →
      detectCheckoutDate rowDate (some ci) (some co) =
        formatDateString (civilFromDays (dateToDays d + 1))) := by
  constructor
  · intro hlt
    have hnle : ¬ timeToMinutes co ≤ timeToMinutes ci := Nat.not_le.mpr hlt
    simp [detectCheckoutDate, truthyS, hci, hco, hnle]
  · intro hle
    simp [detectCheckoutDate, truthyS, hci, hco, hle, hd]

/-- C3 witness: check-in 23:50 / check-out 00:10 on row 01/01/2026
shifts the check-out date to 02/01/2026, while 09:00 / 17:00 keeps the
row date. -/
theorem overnight_detection_witness :
    detectCheckoutDate "01/01/2026" (some "23:50") (some "00:10") = "02/01/2026" ∧
    detectCheckoutDate "01/01/2026" (some "09:00") (some "17:00") = "01/01/2026" := by
  constructor
  · have h := (overnight_detection "01/01/2026" ⟨1, 1, 2026⟩ "23:50" "00:10"
      (by decide) (by decide) (by decide)).2 (by decide)
    exact h.trans (by decide)
  · exact (overnight_detection "01/01/2026" ⟨1, 1, 2026⟩ "09:00" "17:00"
      (by decide) (by decide) (by decide)).1 (by decide)

/-- C4 counterexample: the numeric cell value 1.25 decodes to
`"30:00"` (1800 elapsed minutes), not to the claimed `"06:00"`. -/
theorem numeric_decode_counterexample :
    formatTimeValue (CellValue.num (5/4)) = some "30:00" ∧
    ("30:00" : String) ≠ "06:00" := by
  refine ⟨?_, by decide⟩
  have h1 : ¬ ((0:ℚ) ≤ 5/4 ∧ (5/4:ℚ) < 1) := by norm_num
  have h2 : (1:ℚ) ≤ 5/4 := by norm_num
  have hr : jsRound ((5/4 : ℚ) * 24 * 60) = 1800 := by
    rw [jsRound, Int.floor_eq_iff]
    norm_num
  simp [formatTimeValue, h1, h2, hr]
  decide

/-- C4 (amended): every nonnegative numeric cell value decodes by the
elapsed-duration formula — `totalMinutes = round(v × 1440)` rendered as
zero-padded `floor(totalMinutes / 60)` hours and `totalMinutes mod 60`
minutes; in particular `0.5 → "12:00"`, `0.0 → "00:00"`, and
`1.25 → "30:00"` (not wall-clock capped to `"06:00"`). -/
theorem numeric_decode_formula :
    (∀ v : ℚ, 0 ≤ v →
      formatTimeValue (CellValue.num v) =
        some (pad2Int (Int.fdiv (jsRound (v * 24 * 60)) 60) ++ ":" ++
          pad2Int (Int.tmod (jsRound (v * 24 * 60)) 60))) ∧
    formatTimeValue (CellValue.num (1/2)) = some "12:00" ∧
    formatTimeValue (CellValue.num 0) = some "00:00" ∧
    formatTimeValue (CellValue.num (5/4)) = some "30:00" := by
  have hgen : ∀ v : ℚ, 0 ≤ v →
      formatTimeValue (CellValue.num v) =
        some (pad2Int (Int.fdiv (jsRound (v * 24 * 60)) 60) ++ ":" ++
          pad2Int (Int.tmod (jsRound (v * 24 * 60)) 60)) := by
    intro v hv
    by_cases h1 : v < 1
    · simp [formatTimeValue, hv, h1, excelTimeToString]
    · have h2 : (1:ℚ) ≤ v := le_of_not_lt h1
      simp [formatTimeValue, hv, h1, h2]
  refine ⟨hgen, ?_, ?_, ?_⟩
  · rw [hgen (1/2) (by norm_num),
      show jsRound ((1/2 : ℚ) * 24 * 60) = 720 from by
        rw [jsRound, Int.floor_eq_iff]; norm_num]
    decide
  · rw [hgen 0 le_rfl,
      show jsRound ((0 : ℚ) * 24 * 60) = 0 from by
        rw [jsRound, Int.floor_eq_iff]; norm_num]
    decide
  · rw [hgen (5/4) (by norm_num),
      show jsRound ((5/4 : ℚ) * 24 * 60) = 1800 from by
        rw [jsRound, Int.floor_eq_iff]; norm_num]
    decide

/-- C4 witness: the general decode formula instantiated at 0.5. -/
theorem numeric_decode_formula_witness :
    formatTimeValue (CellValue.num (1/2)) =
      some (pad2Int (Int.fdiv (jsRound ((1/2 : ℚ) * 24 * 60)) 60) ++ ":" ++
        pad2Int (Int.tmod (jsRound ((1/2 : ℚ) * 24 * 60)) 60)) :=
  numeric_decode_formula.1 (1/2) (by norm_num)

/-- C7 counterexample: with the spreadsheet store never loaded and no
directory user, the comparison handler returns 404 — not the claimed
400 (no 400 path exists in the handler). -/
theorem comparison_status_counterexample :
    getComparisonStatus false (some ⟨[]⟩) none = 404 ∧ (404 : Nat) ≠ 400 := by
  decide

/-- C7 (amended): the comparison handler fails with 404 exactly when no
spreadsheet data resolves for the employee (store not loaded, or the
employee absent from it) and the employee is unknown to the directory;
it never returns 400 — the never-loaded, no-fallback case is also a
404. -/
theorem comparison_status_exactly (xlsxLoaded : Bool)
    (xe : Option EmployeeXlsxData) (user : Option UserDocument) :
    (getComparisonStatus xlsxLoaded xe user = 404 ↔
      ((xlsxLoaded = false ∨ xe = none) ∧ user = none)) ∧
    getComparisonStatus xlsxLoaded xe user ≠ 400 := by
  cases xlsxLoaded <;> cases xe <;> cases user <;> simp [getComparisonStatus]

/-- C8: the low-hours flag is set exactly when the spreadsheet's net
work hours value converts to a decimal-hour value in the half-open band
`[3, 4)`. -/
theorem low_hours_band (x : XlsxDayData) (m : MongoDayData) (nw : String)
    (hnw : x.netWorkHours = some nw) (hne : nw ≠ "") :
    ((detectDiscrepancies x m).lowHours = true ↔
      ∃ q : ℚ, timeStringToHours (some nw) = some q ∧
        LOW_HOURS_MIN ≤ q ∧ q < LOW_HOURS_MAX) := by
  cases hq : timeStringToHours (some nw) with
  | none => simp [detectDiscrepancies, hnw, truthyS, hne, hq]
  | some q =>
    have hmain : (detectDiscrepancies x m).lowHours =
        (decide (0 < q) && decide (LOW_HOURS_MIN ≤ q) && decide (q < LOW_HOURS_MAX)) := by
      simp [detectDiscrepancies, hnw, truthyS, hne, hq]
    rw [hmain]
    simp only [Bool.and_eq_true, decide_eq_true_eq, Option.some.injEq]
    constructor
    · rintro ⟨⟨h0, h3⟩, h4⟩
      exact ⟨q, rfl, h3, h4⟩
    · rintro ⟨q2, hq2, h3, h4⟩
      cases hq2
      have h0 : (0 : ℚ) < q := lt_of_lt_of_le (by norm_num [LOW_HOURS_MIN]) h3
      exact ⟨⟨h0, h3⟩, h4⟩

/-- C8 witness: net work hours 03:30 sets the low-hours flag. -/
theorem low_hours_band_witness :
    (detectDiscrepancies ⟨none, "01/01/2026", none, "01/01/2026", some "03:30"⟩
      ⟨none, none, none, none, none⟩).lowHours = true :=
  (low_hours_band ⟨none, "01/01/2026", none, "01/01/2026", some "03:30"⟩
    ⟨none, none, none, none, none⟩ "03:30" rfl (by decide)).mpr
    ⟨((3 : Int) : ℚ) + ((30 : Int) : ℚ) / 60, rfl, by norm_num [LOW_HOURS_MIN],
      by norm_num [LOW_HOURS_MAX]⟩

theorem parseDateTimeString_ne_empty (dateStr timeStr : String) (v : Int)
    (h : parseDateTimeString dateStr timeStr = some v) : timeStr ≠ "" := by
  intro he
  subst he
  cases hp : parseDateString dateStr <;>
    simp [parseDateTimeString, hp, matchHMM] at h

/-- C9: a check-in instant strictly after the check-out instant yields
no duration — `calculateNetHoursWithDates` returns null, never a
negative value and never one wrapped by adding 24 hours. -/
theorem negative_span_suppressed (checkInDate checkOutDate : String)
    (checkInTime checkOutTime : String) (a b : Int)
    (ha : parseDateTimeString checkInDate checkInTime = some a)
    (hb : parseDateTimeString checkOutDate checkOutTime = some b)
    (hba : b < a) :
    calculateNetHoursWithDates checkInDate (some checkInTime)
      checkOutDate (some checkOutTime) = none := by
  have h1 : checkInTime ≠ "" := parseDateTimeString_ne_empty _ _ _ ha
  have h2 : checkOutTime ≠ "" := parseDateTimeString_ne_empty _ _ _ hb
  have hneg : b - a < 0 := by omega
  simp [calculateNetHoursWithDates, truthyS, h1, h2, ha, hb, hneg]

/-- C9 witness: check-in 02/01/2026 09:00 against check-out 01/01/2026
17:00 (an earlier instant) produces no duration. -/
theorem negative_span_suppressed_witness :
    calculateNetHoursWithDates "02/01/2026" (some "09:00")
      "01/01/2026" (some "17:00") = none :=
  negative_span_suppressed "02/01/2026" "01/01/2026" "09:00" "17:00"
    (daysFromCivil 2026 1 2 * 86400000 + 32400000)
    (daysFromCivil 2026 1 1 * 86400000 + 61200000)
    (by decide) (by decide) (by decide)

end TSE
